import Mathlib

/-!
Verification of the consensus-ordering core of rgb-core (`src/vm/contract.rs`):
the `GlobalOrd` / `WitnessAnchor` total orders and the `GlobalContractState`
cached accessor over a `GlobalStateIter` storage cursor.

Machine integers (`u16`, `u32`) are embedded as `Nat`; the only arithmetic the
source performs on them is comparison and one `u32` subtraction, which is
modelled with explicit wrap-around modulo 2^32 (release-mode Rust semantics).
Rust panics are embedded as an `Except` error result.
-/

/-- Rust integer `cmp` on unsigned integers, embedded over `Nat`. -/
def natCmp (a b : Nat) : Ordering :=
  if a < b then .lt else if a = b then .eq else .gt

/-- Modelled from the spec: `XWitnessId` (witness transaction identity) is an
opaque externally-defined identity with a stable, deterministic total order; it
is not defined in `src/vm/contract.rs`, so it is embedded as `Nat`. -/
abbrev XWitnessId := Nat

/-- Modelled from the spec: `WitnessOrd` (the spec's "WitnessRank") is an
externally-produced comparable value where any off-chain (mempool) rank is
strictly below any on-chain (confirmed) rank, confirmed witnesses compare by
chain position and unconfirmed ones by priority. -/
inductive WitnessOrd : Type where
  | offChain (priority : Nat)
  | onChain (pos : Nat)
  deriving DecidableEq

/-- Modelled from the spec: comparison of `WitnessOrd` values (off-chain below
on-chain; within a class, by the numeric field). -/
def WitnessOrd.cmp : WitnessOrd → WitnessOrd → Ordering
  | .offChain p1, .offChain p2 => natCmp p1 p2
  | .offChain _, .onChain _ => .lt
  | .onChain _, .offChain _ => .gt
  | .onChain h1, .onChain h2 => natCmp h1 h2

/-- Source `WitnessAnchor`: a witness rank paired with the witness identity. -/
structure WitnessAnchor : Type where
  witness_ord : WitnessOrd
  witness_id : XWitnessId
  deriving DecidableEq

/-- Source `impl Ord for WitnessAnchor`: equal values compare `Equal`; otherwise the
primary key is `witness_ord` and ties are broken by `witness_id`. -/
def WitnessAnchor.cmp (a b : WitnessAnchor) : Ordering :=
  if a = b then .eq
  else
    match WitnessOrd.cmp a.witness_ord b.witness_ord with
    | .lt => .lt
    | .gt => .gt
    | .eq => natCmp a.witness_id b.witness_id

/-- Source `AssignmentWitness`: whether an owned-state assignment is anchored to a
witness transaction. -/
inductive AssignmentWitness : Type where
  | absent
  | present (id : XWitnessId)
  deriving DecidableEq

/-- Source `impl From<Option<XWitnessId>> for AssignmentWitness`. -/
def AssignmentWitness.fromOption : Option XWitnessId → AssignmentWitness
  | none => .absent
  | some id => .present id

/-- Source `GlobalOrd`: consensus position of one global-state update record. -/
structure GlobalOrd : Type where
  witness_anchor : Option WitnessAnchor
  idx : Nat
  deriving DecidableEq

/-- Source `impl Ord for GlobalOrd`: equal values compare `Equal`; unanchored records
come before anchored ones; otherwise anchors compare first and `idx` breaks
ties. -/
def GlobalOrd.cmp (a b : GlobalOrd) : Ordering :=
  if a = b then .eq
  else
    match a.witness_anchor, b.witness_anchor with
    | none, none => natCmp a.idx b.idx
    | none, some _ => .lt
    | some _, none => .gt
    | some o1, some o2 => if o1 = o2 then natCmp a.idx b.idx else WitnessAnchor.cmp o1 o2

/-- Source `GlobalOrd::with_anchor`. -/
def GlobalOrd.with_anchor (ord_txid : WitnessAnchor) (idx : Nat) : GlobalOrd :=
  { witness_anchor := some ord_txid, idx := idx }

/-- Source `GlobalOrd::genesis`. -/
def GlobalOrd.genesis (idx : Nat) : GlobalOrd :=
  { witness_anchor := none, idx := idx }

/-- Modelled from the spec: `DataState` is an opaque structured-data payload
defined outside `src/vm/contract.rs`; the accessor only moves it around, so it
is embedded as `Nat`. -/
abbrev DataState := Nat

/-- The `GlobalStateIter` trait: a stateful storage cursor over one
global-state history, embedded as a record of state-passing operations over an
implementation-chosen state type `σ`.  `prev` and `last` take `&mut self` in
the source, so both return the (possibly updated) cursor state. -/
structure GlobalStateIter (σ : Type) : Type where
  size : σ → Nat
  prev : σ → Option (GlobalOrd × DataState) × σ
  last : σ → Option (GlobalOrd × DataState) × σ
  reset : σ → Nat → σ

/-- Source `GlobalContractState`: the cached accessor wrapping a cursor state. -/
structure GlobalContractState (σ : Type) : Type where
  checked_depth : Nat
  last_ord : GlobalOrd
  iter : σ
  deriving DecidableEq

/-- Source `GlobalContractState::from`: pull one record with `prev` to learn the
newest order (defaulting to `{ witness_anchor: None, idx: 0 }` on an empty
history), reset the cursor to depth 0, and start with `checked_depth = 1`. -/
def GlobalContractState.fromIter {σ : Type} (I : GlobalStateIter σ) (s : σ) :
    GlobalContractState σ :=
  let r := I.prev s
  let last_ord := (r.1.map Prod.fst).getD { witness_anchor := none, idx := 0 }
  { checked_depth := 1, last_ord := last_ord, iter := I.reset r.2 0 }

/-- The two panics reachable from `GlobalContractState::nth`: the cursor ran
dry during the validation walk (`exhausted`), or it produced a record not
strictly below the previously validated one (`misordered`). -/
inductive Fault : Type where
  | exhausted
  | misordered
  deriving DecidableEq

/-- Wrapping `u32` subtraction (release-mode Rust semantics of `a - b`). -/
def u32sub (a b : Nat) : Nat :=
  (a + 4294967296 - b) % 4294967296

/-- The validation loop inside `nth`: perform `n` `prev` steps, requiring each
record's order to be strictly below the running `last_ord` and advancing
`last_ord` after each successful step; either panic is a `Fault`. -/
def walk {σ : Type} (I : GlobalStateIter σ) :
    Nat → GlobalOrd → σ → Except Fault (GlobalOrd × σ)
  | 0, last_ord, s => .ok (last_ord, s)
  | n + 1, last_ord, s =>
    match I.prev s with
    | (none, _) => .error .exhausted
    | (some (ord, _), s1) =>
      if GlobalOrd.cmp ord last_ord = .lt then walk I n ord s1
      else .error .misordered

/-- Source `GlobalContractState::nth`: returns `.ok (value?, new state)` on normal
return and `.error` when a panic is reached.  Mirrors the source exactly:
out-of-range depths return `None`; `depth >= checked_depth` resets straight to
`depth`; otherwise the cursor is reset to `checked_depth` and the validation
loop runs `depth - checked_depth` (wrapping `u32`) steps before reading. -/
def GlobalContractState.nth {σ : Type} (I : GlobalStateIter σ)
    (st : GlobalContractState σ) (depth : Nat) :
    Except Fault (Option DataState × GlobalContractState σ) :=
  if I.size st.iter ≤ depth then .ok (none, st)
  else if st.checked_depth ≤ depth then
    .ok ((I.last (I.reset st.iter depth)).1.map Prod.snd,
      { st with iter := (I.last (I.reset st.iter depth)).2 })
  else
    match walk I (u32sub depth st.checked_depth) st.last_ord
        (I.reset st.iter st.checked_depth) with
    | .error f => .error f
    | .ok (last_ord, s2) =>
      .ok ((I.last s2).1.map Prod.snd,
        { st with last_ord := last_ord, iter := (I.last s2).2 })

/-- Run a sequence of `nth` queries, threading the accessor state and stopping
at the first fault. -/
def runNth {σ : Type} (I : GlobalStateIter σ) :
    List Nat → GlobalContractState σ → Except Fault (GlobalContractState σ)
  | [], st => .ok st
  | d :: ds, st =>
    match st.nth I d with
    | .error f => .error f
    | .ok (_, st') => runNth I ds st'

/-- A canonical list-backed cursor: `records` holds the history newest first,
and `pos` counts how many records have been consumed (so `last` re-reads the
most recently consumed record, as the `GlobalStateIter` contract requires). -/
structure ListCursor : Type where
  records : List (GlobalOrd × DataState)
  pos : Nat
  deriving DecidableEq

/-- The `GlobalStateIter` implementation of the list-backed cursor: `size` is
the record count, `prev` consumes the next-older record, `last` re-reads the
record at the current position without advancing, and `reset depth` positions
the cursor so the next `last` yields the record `depth` steps from newest. -/
def listCursorIter : GlobalStateIter ListCursor where
  size s := s.records.length
  prev s :=
    match s.records[s.pos]? with
    | some r => (some r, { s with pos := s.pos + 1 })
    | none => (none, s)
  last s :=
    if s.pos = 0 then (none, s) else (s.records[s.pos - 1]?, s)
  reset s depth := { s with pos := depth + 1 }

/-- A cursor is conforming when its records are strictly decreasing in
`GlobalOrd` from newest to oldest. -/
def Conforming (records : List (GlobalOrd × DataState)) : Prop :=
  List.Chain' (fun a b => GlobalOrd.cmp b.1 a.1 = .lt) records

/-- Modelled from the spec: the value a pure, from-scratch forward walk of the
history returns at `depth` — the record `depth` steps back from the newest. -/
def pureNth (records : List (GlobalOrd × DataState)) (depth : Nat) :
    Option DataState :=
  (records[depth]?).map Prod.snd

/-! ### Characterization of the comparison functions -/

theorem natCmp_refl (a : Nat) : natCmp a a = .eq := by
  simp [natCmp]

theorem natCmp_eq_lt {a b : Nat} : natCmp a b = .lt ↔ a < b := by
  unfold natCmp
  split_ifs with h1 h2
  · exact iff_of_true rfl h1
  · exact iff_of_false (by simp) h1
  · exact iff_of_false (by simp) h1

theorem natCmp_eq_eq {a b : Nat} : natCmp a b = .eq ↔ a = b := by
  unfold natCmp
  split_ifs with h1 h2
  · exact iff_of_false (by simp) (by omega)
  · exact iff_of_true rfl h2
  · exact iff_of_false (by simp) h2

theorem natCmp_eq_gt {a b : Nat} : natCmp a b = .gt ↔ b < a := by
  unfold natCmp
  split_ifs with h1 h2
  · exact iff_of_false (by simp) (by omega)
  · exact iff_of_false (by simp) (by omega)
  · exact iff_of_true rfl (by omega)

theorem ordThen_eq_lt {o1 o2 : Ordering} :
    o1.then o2 = .lt ↔ o1 = .lt ∨ (o1 = .eq ∧ o2 = .lt) := by
  cases o1 <;> simp [Ordering.then]

theorem ordThen_eq_eq {o1 o2 : Ordering} :
    o1.then o2 = .eq ↔ o1 = .eq ∧ o2 = .eq := by
  cases o1 <;> simp [Ordering.then]

theorem ordThen_eq_gt {o1 o2 : Ordering} :
    o1.then o2 = .gt ↔ o1 = .gt ∨ (o1 = .eq ∧ o2 = .gt) := by
  cases o1 <;> simp [Ordering.then]

/-- The strict order on modelled witness ranks. -/
def WitnessOrd.lt : WitnessOrd → WitnessOrd → Prop
  | .offChain p1, .offChain p2 => p1 < p2
  | .offChain _, .onChain _ => True
  | .onChain _, .offChain _ => False
  | .onChain h1, .onChain h2 => h1 < h2

theorem wcmp_refl (w : WitnessOrd) : WitnessOrd.cmp w w = .eq := by
  cases w <;> simp [WitnessOrd.cmp, natCmp_refl]

theorem wcmp_eq_lt {w1 w2 : WitnessOrd} :
    WitnessOrd.cmp w1 w2 = .lt ↔ WitnessOrd.lt w1 w2 := by
  cases w1 <;> cases w2 <;> simp [WitnessOrd.cmp, WitnessOrd.lt, natCmp_eq_lt]

theorem wcmp_eq_eq {w1 w2 : WitnessOrd} :
    WitnessOrd.cmp w1 w2 = .eq ↔ w1 = w2 := by
  cases w1 <;> cases w2 <;> simp [WitnessOrd.cmp, natCmp_eq_eq]

theorem wcmp_eq_gt {w1 w2 : WitnessOrd} :
    WitnessOrd.cmp w1 w2 = .gt ↔ WitnessOrd.lt w2 w1 := by
  cases w1 <;> cases w2 <;> simp [WitnessOrd.cmp, WitnessOrd.lt, natCmp_eq_gt]

theorem wlt_trans {a b c : WitnessOrd}
    (h1 : WitnessOrd.lt a b) (h2 : WitnessOrd.lt b c) : WitnessOrd.lt a c := by
  cases a <;> cases b <;> cases c <;> simp_all [WitnessOrd.lt] <;> omega

/-- The strict order on witness anchors: rank first, witness identity as the
tiebreak. -/
def WitnessAnchor.lt (a b : WitnessAnchor) : Prop :=
  WitnessOrd.lt a.witness_ord b.witness_ord ∨
    (a.witness_ord = b.witness_ord ∧ a.witness_id < b.witness_id)

theorem acmp_then (a b : WitnessAnchor) :
    WitnessAnchor.cmp a b =
      (WitnessOrd.cmp a.witness_ord b.witness_ord).then
        (natCmp a.witness_id b.witness_id) := by
  obtain ⟨wo1, wi1⟩ := a
  obtain ⟨wo2, wi2⟩ := b
  by_cases h : (WitnessAnchor.mk wo1 wi1) = ⟨wo2, wi2⟩
  · injection h with h1 h2
    subst h1; subst h2
    simp [WitnessAnchor.cmp, wcmp_refl, natCmp_refl, Ordering.then]
  · rw [WitnessAnchor.cmp, if_neg h]
    rcases hw : WitnessOrd.cmp wo1 wo2 with _ | _ | _ <;> simp [hw, Ordering.then]

theorem acmp_eq_eq {a b : WitnessAnchor} : WitnessAnchor.cmp a b = .eq ↔ a = b := by
  obtain ⟨wo1, wi1⟩ := a
  obtain ⟨wo2, wi2⟩ := b
  rw [acmp_then, ordThen_eq_eq]
  simp [wcmp_eq_eq, natCmp_eq_eq]

theorem acmp_eq_lt {a b : WitnessAnchor} :
    WitnessAnchor.cmp a b = .lt ↔ WitnessAnchor.lt a b := by
  rw [acmp_then, ordThen_eq_lt]
  simp [WitnessAnchor.lt, wcmp_eq_lt, wcmp_eq_eq, natCmp_eq_lt]

theorem acmp_eq_gt {a b : WitnessAnchor} :
    WitnessAnchor.cmp a b = .gt ↔ WitnessAnchor.lt b a := by
  rw [acmp_then, ordThen_eq_gt]
  simp only [WitnessAnchor.lt, wcmp_eq_gt, wcmp_eq_eq, natCmp_eq_gt]
  constructor
  · rintro (h | ⟨he, hi⟩)
    · exact Or.inl h
    · exact Or.inr ⟨he.symm, hi⟩
  · rintro (h | ⟨he, hi⟩)
    · exact Or.inl h
    · exact Or.inr ⟨he.symm, hi⟩

theorem alt_trans {a b c : WitnessAnchor}
    (h1 : WitnessAnchor.lt a b) (h2 : WitnessAnchor.lt b c) :
    WitnessAnchor.lt a c := by
  rcases h1 with h1 | ⟨he1, hi1⟩
  · rcases h2 with h2 | ⟨he2, hi2⟩
    · exact Or.inl (wlt_trans h1 h2)
    · exact Or.inl (he2 ▸ h1)
  · rcases h2 with h2 | ⟨he2, hi2⟩
    · exact Or.inl (by rw [he1]; exact h2)
    · exact Or.inr ⟨he1.trans he2, Nat.lt_trans hi1 hi2⟩

/-- Comparison of optional anchors as performed by the four match arms of
`GlobalOrd.cmp`: unanchored below anchored, anchored by anchor order. -/
def optAnchorCmp : Option WitnessAnchor → Option WitnessAnchor → Ordering
  | none, none => .eq
  | none, some _ => .lt
  | some _, none => .gt
  | some x, some y => WitnessAnchor.cmp x y

/-- The strict order on optional anchors. -/
def optAnchorLt : Option WitnessAnchor → Option WitnessAnchor → Prop
  | none, none => False
  | none, some _ => True
  | some _, none => False
  | some x, some y => WitnessAnchor.lt x y

theorem optAnchorCmp_eq_lt {x y : Option WitnessAnchor} :
    optAnchorCmp x y = .lt ↔ optAnchorLt x y := by
  cases x <;> cases y <;> simp [optAnchorCmp, optAnchorLt, acmp_eq_lt]

theorem optAnchorCmp_eq_eq {x y : Option WitnessAnchor} :
    optAnchorCmp x y = .eq ↔ x = y := by
  cases x <;> cases y <;> simp [optAnchorCmp, acmp_eq_eq]

theorem optAnchorCmp_eq_gt {x y : Option WitnessAnchor} :
    optAnchorCmp x y = .gt ↔ optAnchorLt y x := by
  cases x <;> cases y <;> simp [optAnchorCmp, optAnchorLt, acmp_eq_gt]

theorem optAnchorLt_trans {x y z : Option WitnessAnchor}
    (h1 : optAnchorLt x y) (h2 : optAnchorLt y z) : optAnchorLt x z := by
  cases x <;> cases y <;> cases z <;>
    first
      | exact alt_trans h1 h2
      | simp_all [optAnchorLt]

/-- The strict order on `GlobalOrd`: anchors first (unanchored below
anchored), index as the tiebreak. -/
def GlobalOrd.lt (a b : GlobalOrd) : Prop :=
  optAnchorLt a.witness_anchor b.witness_anchor ∨
    (a.witness_anchor = b.witness_anchor ∧ a.idx < b.idx)

theorem gcmp_then (a b : GlobalOrd) :
    GlobalOrd.cmp a b =
      (optAnchorCmp a.witness_anchor b.witness_anchor).then (natCmp a.idx b.idx) := by
  obtain ⟨oa, ia⟩ := a
  obtain ⟨ob, ib⟩ := b
  by_cases h : (GlobalOrd.mk oa ia) = ⟨ob, ib⟩
  · injection h with h1 h2
    subst h1; subst h2
    have : optAnchorCmp oa oa = .eq := optAnchorCmp_eq_eq.mpr rfl
    simp [GlobalOrd.cmp, this, natCmp_refl, Ordering.then]
  · rw [GlobalOrd.cmp, if_neg h]
    cases oa with
    | none =>
      cases ob with
      | none => simp [optAnchorCmp, Ordering.then]
      | some y => simp [optAnchorCmp, Ordering.then]
    | some x =>
      cases ob with
      | none => simp [optAnchorCmp, Ordering.then]
      | some y =>
        by_cases hxy : x = y
        · subst hxy
          have : WitnessAnchor.cmp x x = .eq := acmp_eq_eq.mpr rfl
          simp [optAnchorCmp, this, Ordering.then]
        · rcases hc : WitnessAnchor.cmp x y with _ | _ | _
          · simp [optAnchorCmp, hc, Ordering.then, hxy]
          · exact absurd (acmp_eq_eq.mp hc) hxy
          · simp [optAnchorCmp, hc, Ordering.then, hxy]

theorem gcmp_eq_eq {a b : GlobalOrd} : GlobalOrd.cmp a b = .eq ↔ a = b := by
  obtain ⟨oa, ia⟩ := a
  obtain ⟨ob, ib⟩ := b
  rw [gcmp_then, ordThen_eq_eq]
  simp [optAnchorCmp_eq_eq, natCmp_eq_eq]

theorem gcmp_eq_lt {a b : GlobalOrd} :
    GlobalOrd.cmp a b = .lt ↔ GlobalOrd.lt a b := by
  rw [gcmp_then, ordThen_eq_lt]
  simp [GlobalOrd.lt, optAnchorCmp_eq_lt, optAnchorCmp_eq_eq, natCmp_eq_lt]

theorem gcmp_eq_gt {a b : GlobalOrd} :
    GlobalOrd.cmp a b = .gt ↔ GlobalOrd.lt b a := by
  rw [gcmp_then, ordThen_eq_gt]
  simp only [GlobalOrd.lt, optAnchorCmp_eq_gt, optAnchorCmp_eq_eq, natCmp_eq_gt]
  constructor
  · rintro (h | ⟨he, hi⟩)
    · exact Or.inl h
    · exact Or.inr ⟨he.symm, hi⟩
  · rintro (h | ⟨he, hi⟩)
    · exact Or.inl h
    · exact Or.inr ⟨he.symm, hi⟩

theorem glt_trans {a b c : GlobalOrd}
    (h1 : GlobalOrd.lt a b) (h2 : GlobalOrd.lt b c) : GlobalOrd.lt a c := by
  rcases h1 with h1 | ⟨he1, hi1⟩
  · rcases h2 with h2 | ⟨he2, hi2⟩
    · exact Or.inl (optAnchorLt_trans h1 h2)
    · exact Or.inl (he2 ▸ h1)
  · rcases h2 with h2 | ⟨he2, hi2⟩
    · exact Or.inl (by rw [he1]; exact h2)
    · exact Or.inr ⟨he1.trans he2, Nat.lt_trans hi1 hi2⟩

/-! ### Concrete history from the specification example -/

/-- Anchor `A` of the spec example: on-chain at position 100. -/
def anchorA : WitnessAnchor := { witness_ord := .onChain 100, witness_id := 1 }

/-- Anchor `B` of the spec example: on-chain at position 200. -/
def anchorB : WitnessAnchor := { witness_ord := .onChain 200, witness_id := 2 }

/-- Record order `r0 = genesis(0)` of the spec example. -/
def rec0 : GlobalOrd := GlobalOrd.genesis 0

/-- Record order `r1 = with_anchor(A, 0)` of the spec example. -/
def rec1 : GlobalOrd := GlobalOrd.with_anchor anchorA 0

/-- Record order `r2 = with_anchor(A, 1)` of the spec example. -/
def rec2 : GlobalOrd := GlobalOrd.with_anchor anchorA 1

/-- Record order `r3 = with_anchor(B, 0)` of the spec example. -/
def rec3 : GlobalOrd := GlobalOrd.with_anchor anchorB 0

/-- The spec-example history, newest first: `r3, r2, r1, r0`. -/
def exampleRecords : List (GlobalOrd × DataState) :=
  [(rec3, 30), (rec2, 21), (rec1, 20), (rec0, 7)]

/-- Accessor over the spec-example history. -/
def exampleState : GlobalContractState ListCursor :=
  GlobalContractState.fromIter listCursorIter { records := exampleRecords, pos := 0 }

/-- A single-record conforming history. -/
def oneRecord : List (GlobalOrd × DataState) := [(rec0, 7)]

/-- Accessor over the single-record history. -/
def oneState : GlobalContractState ListCursor :=
  GlobalContractState.fromIter listCursorIter { records := oneRecord, pos := 0 }

/-- Accessor over the empty history. -/
def emptyState : GlobalContractState ListCursor :=
  GlobalContractState.fromIter listCursorIter { records := [], pos := 0 }

/-! ### Claim theorems -/

/-- C1: `GlobalOrd.cmp` implements the canonical four-rule consensus order:
an unanchored record compares strictly below every anchored record regardless
of either index; two unanchored records compare by index alone; two anchored
records with distinct anchors compare by `WitnessAnchor` order; two anchored
records sharing an anchor compare by index. -/
theorem globalOrd_cmp_consensus_rules (i j : Nat) (x y : WitnessAnchor) :
    (GlobalOrd.cmp (GlobalOrd.genesis i) (GlobalOrd.with_anchor x j) = .lt) ∧
    (GlobalOrd.cmp (GlobalOrd.with_anchor x j) (GlobalOrd.genesis i) = .gt) ∧
    (GlobalOrd.cmp (GlobalOrd.genesis i) (GlobalOrd.genesis j) = natCmp i j) ∧
    (x ≠ y →
      GlobalOrd.cmp (GlobalOrd.with_anchor x i) (GlobalOrd.with_anchor y j) =
        WitnessAnchor.cmp x y) ∧
    (GlobalOrd.cmp (GlobalOrd.with_anchor x i) (GlobalOrd.with_anchor x j) =
      natCmp i j) := by
  refine ⟨?_, ?_, ?_, ?_, ?_⟩
  · rw [gcmp_then]
    simp [GlobalOrd.genesis, GlobalOrd.with_anchor, optAnchorCmp, Ordering.then]
  · rw [gcmp_then]
    simp [GlobalOrd.genesis, GlobalOrd.with_anchor, optAnchorCmp, Ordering.then]
  · rw [gcmp_then]
    simp [GlobalOrd.genesis, optAnchorCmp, Ordering.then]
  · intro hxy
    rw [gcmp_then]
    simp only [GlobalOrd.with_anchor]
    rcases hc : WitnessAnchor.cmp x y with _ | _ | _
    · simp [optAnchorCmp, hc, Ordering.then]
    · exact absurd (acmp_eq_eq.mp hc) hxy
    · simp [optAnchorCmp, hc, Ordering.then]
  · rw [gcmp_then]
    have h : WitnessAnchor.cmp x x = .eq := acmp_eq_eq.mpr rfl
    simp [GlobalOrd.with_anchor, optAnchorCmp, h, Ordering.then]

/-- Witness for C1 at the spec-example anchors. -/
theorem globalOrd_cmp_consensus_rules_witness :
    GlobalOrd.cmp (GlobalOrd.with_anchor anchorA 5) (GlobalOrd.with_anchor anchorB 0) =
      WitnessAnchor.cmp anchorA anchorB ∧
    GlobalOrd.cmp (GlobalOrd.genesis 9) (GlobalOrd.with_anchor anchorA 0) = .lt :=
  ⟨(globalOrd_cmp_consensus_rules 5 0 anchorA anchorB).2.2.2.1 (by decide),
   (globalOrd_cmp_consensus_rules 9 0 anchorA anchorB).1⟩

/-- C2: `GlobalOrd.cmp` is a total order consistent with structural equality:
for every pair one of the three outcomes holds, the outcome `eq` holds exactly
on structurally equal values, `lt` and `gt` are converses, and strict
comparison is transitive. -/
theorem globalOrd_cmp_total_order (a b c : GlobalOrd) :
    (GlobalOrd.cmp a b = .lt ∨ GlobalOrd.cmp a b = .eq ∨ GlobalOrd.cmp a b = .gt) ∧
    (GlobalOrd.cmp a b = .eq ↔ a = b) ∧
    (GlobalOrd.cmp a b = .lt ↔ GlobalOrd.cmp b a = .gt) ∧
    (GlobalOrd.cmp a b = .lt → GlobalOrd.cmp b c = .lt → GlobalOrd.cmp a c = .lt) := by
  refine ⟨?_, gcmp_eq_eq, ?_, ?_⟩
  · rcases h : GlobalOrd.cmp a b with _ | _ | _ <;> simp
  · rw [gcmp_eq_lt, gcmp_eq_gt]
  · intro h1 h2
    rw [gcmp_eq_lt] at h1 h2 ⊢
    exact glt_trans h1 h2

/-- Witness for C2: transitivity applied across genesis and the two example
anchors. -/
theorem globalOrd_cmp_total_order_witness :
    GlobalOrd.cmp (GlobalOrd.genesis 0) (GlobalOrd.with_anchor anchorB 0) = .lt :=
  (globalOrd_cmp_total_order (GlobalOrd.genesis 0) (GlobalOrd.with_anchor anchorA 0)
      (GlobalOrd.with_anchor anchorB 0)).2.2.2 (by decide) (by decide)

/-- C7: `WitnessAnchor.cmp` is a total order keyed on the witness rank with
the witness identity as tiebreak: a strictly smaller rank forces `lt`, equal
ranks compare by identity, equality holds exactly when both fields agree, and
the order is total and transitive. -/
theorem witnessAnchor_cmp_total_order (a b c : WitnessAnchor) :
    (WitnessOrd.lt a.witness_ord b.witness_ord → WitnessAnchor.cmp a b = .lt) ∧
    (a.witness_ord = b.witness_ord →
      WitnessAnchor.cmp a b = natCmp a.witness_id b.witness_id) ∧
    (WitnessAnchor.cmp a b = .eq ↔
      a.witness_ord = b.witness_ord ∧ a.witness_id = b.witness_id) ∧
    (WitnessAnchor.cmp a b = .lt ↔ WitnessAnchor.cmp b a = .gt) ∧
    (WitnessAnchor.cmp a b = .lt → WitnessAnchor.cmp b c = .lt →
      WitnessAnchor.cmp a c = .lt) := by
  refine ⟨?_, ?_, ?_, ?_, ?_⟩
  · intro h
    rw [acmp_then, wcmp_eq_lt.mpr h]
    rfl
  · intro h
    rw [acmp_then, h, wcmp_refl]
    rfl
  · rw [acmp_then, ordThen_eq_eq]
    simp [wcmp_eq_eq, natCmp_eq_eq]
  · rw [acmp_eq_lt, acmp_eq_gt]
  · intro h1 h2
    rw [acmp_eq_lt] at h1 h2 ⊢
    exact alt_trans h1 h2

/-- Witness for C7 at the example anchors. -/
theorem witnessAnchor_cmp_total_order_witness :
    WitnessAnchor.cmp anchorA anchorB = .lt ∧
    WitnessAnchor.cmp anchorA { witness_ord := anchorA.witness_ord, witness_id := 9 } =
      natCmp anchorA.witness_id 9 :=
  ⟨(witnessAnchor_cmp_total_order anchorA anchorB anchorB).1
      (by simp only [anchorA, anchorB]; simp only [WitnessOrd.lt]; decide),
   (witnessAnchor_cmp_total_order anchorA
      { witness_ord := anchorA.witness_ord, witness_id := 9 } anchorB).2.1 rfl⟩

/-- C9: the conversion from an optional witness identity to
`AssignmentWitness` is a bijection: `none` maps to `absent`, `some id` to
`present id`, distinct inputs map to distinct values, every value is reached,
and the result is `absent` exactly on `none`. -/
theorem assignmentWitness_from_option_bijective :
    (AssignmentWitness.fromOption none = .absent) ∧
    (∀ id : XWitnessId, AssignmentWitness.fromOption (some id) = .present id) ∧
    (∀ v w : Option XWitnessId,
      AssignmentWitness.fromOption v = AssignmentWitness.fromOption w → v = w) ∧
    (∀ a : AssignmentWitness, ∃ v, AssignmentWitness.fromOption v = a) ∧
    (∀ v : Option XWitnessId,
      AssignmentWitness.fromOption v = .absent ↔ v = none) := by
  refine ⟨rfl, fun _ => rfl, ?_, ?_, ?_⟩
  · intro v w h
    cases v <;> cases w <;> simp_all [AssignmentWitness.fromOption]
  · intro a
    cases a with
    | absent => exact ⟨none, rfl⟩
    | present id => exact ⟨some id, rfl⟩
  · intro v
    cases v <;> simp [AssignmentWitness.fromOption]

/-- Witness for C9 at concrete identities. -/
theorem assignmentWitness_from_option_bijective_witness :
    (some 3 : Option XWitnessId) = some 3 ∧
    AssignmentWitness.fromOption none = .absent :=
  ⟨assignmentWitness_from_option_bijective.2.2.1 (some 3) (some 3) rfl,
   (assignmentWitness_from_option_bijective.2.2.2.2 none).mpr rfl⟩

/-- C6: any depth at or beyond the reported size returns the explicit absence
value without touching the cursor and without faulting, including depth 0 on
an empty history. -/
theorem nth_out_of_range_returns_none {σ : Type} (I : GlobalStateIter σ)
    (st : GlobalContractState σ) (depth : Nat) (h : I.size st.iter ≤ depth) :
    st.nth I depth = .ok (none, st) := by
  unfold GlobalContractState.nth
  rw [if_pos h]

/-- Witness for C6: the empty history answers `nth 0` with absence. -/
theorem nth_out_of_range_returns_none_witness :
    emptyState.nth listCursorIter 0 = .ok (none, emptyState) :=
  nth_out_of_range_returns_none listCursorIter emptyState 0 (by decide)

/-- C8: construction reads one record with `prev`, records its order (or the
unanchored zero-index default on an empty history) as `last_ord`, resets the
cursor to depth 0 and sets `checked_depth = 1`; the default is a minimum of
the `GlobalOrd` order. -/
theorem globalContractState_from_init {σ : Type} (I : GlobalStateIter σ) (s : σ) :
    (GlobalContractState.fromIter I s).checked_depth = 1 ∧
    (GlobalContractState.fromIter I s).last_ord =
      ((I.prev s).1.map Prod.fst).getD { witness_anchor := none, idx := 0 } ∧
    (GlobalContractState.fromIter I s).iter = I.reset (I.prev s).2 0 ∧
    ((I.prev s).1 = none →
      (GlobalContractState.fromIter I s).last_ord =
        { witness_anchor := none, idx := 0 }) ∧
    (∀ g : GlobalOrd,
      GlobalOrd.cmp { witness_anchor := none, idx := 0 } g ≠ .gt) := by
  refine ⟨rfl, rfl, rfl, ?_, ?_⟩
  · intro h
    simp [GlobalContractState.fromIter, h]
  · intro g
    rw [Ne, gcmp_eq_gt]
    rcases g with ⟨(_ | x), i⟩ <;> simp [GlobalOrd.lt, optAnchorLt]

/-- Witness for C8: empty history defaults, and the default sits below the
newest example record. -/
theorem globalContractState_from_init_witness :
    emptyState.last_ord = { witness_anchor := none, idx := 0 } ∧
    GlobalOrd.cmp { witness_anchor := none, idx := 0 } rec3 ≠ .gt :=
  ⟨(globalContractState_from_init listCursorIter
      { records := [], pos := 0 }).2.2.2.1 rfl,
   (globalContractState_from_init listCursorIter
      { records := [], pos := 0 }).2.2.2.2 rec3⟩

/-- C5: during the validation walk of `nth` (the `depth < checked_depth`
branch) the accessor faults and returns no value whenever the cursor either
yields a record whose order is not strictly below the cached `last_ord` or
runs dry before the loop has consumed its steps; after each successful step
`last_ord` advances to the record just read. -/
theorem nth_validation_walk_fault_detection {σ : Type} (I : GlobalStateIter σ) :
    (∀ (n : Nat) (lo : GlobalOrd) (s s' : σ),
      I.prev s = (none, s') → walk I (n + 1) lo s = .error .exhausted) ∧
    (∀ (n : Nat) (lo : GlobalOrd) (s s' : σ) (ord : GlobalOrd) (v : DataState),
      I.prev s = (some (ord, v), s') → GlobalOrd.cmp ord lo ≠ .lt →
      walk I (n + 1) lo s = .error .misordered) ∧
    (∀ (n : Nat) (lo : GlobalOrd) (s s' : σ) (ord : GlobalOrd) (v : DataState),
      I.prev s = (some (ord, v), s') → GlobalOrd.cmp ord lo = .lt →
      walk I (n + 1) lo s = walk I n ord s') ∧
    (∀ (st : GlobalContractState σ) (depth : Nat) (f : Fault),
      depth < st.checked_depth → depth < I.size st.iter →
      walk I (u32sub depth st.checked_depth) st.last_ord
          (I.reset st.iter st.checked_depth) = .error f →
      st.nth I depth = .error f) := by
  refine ⟨?_, ?_, ?_, ?_⟩
  · intro n lo s s' h
    simp [walk, h]
  · intro n lo s s' ord v h hc
    simp [walk, h, hc]
  · intro n lo s s' ord v h hc
    simp [walk, h, hc]
  · intro st depth f h1 h2 h3
    simp only [GlobalContractState.nth]
    rw [if_neg (by omega), if_neg (by omega), h3]

/-- Witness for C5: a dry cursor faults, an out-of-order record faults, and
the single-record accessor surfaces the walk fault from `nth 0`. -/
theorem nth_validation_walk_fault_detection_witness :
    walk listCursorIter 1 rec3 { records := [], pos := 0 } = .error .exhausted ∧
    walk listCursorIter 1 rec0 { records := exampleRecords, pos := 0 } =
      .error .misordered ∧
    oneState.nth listCursorIter 0 = .error .exhausted :=
  ⟨(nth_validation_walk_fault_detection listCursorIter).1 0 rec3 _ _ rfl,
   (nth_validation_walk_fault_detection listCursorIter).2.1 0 rec0 _ _ rec3 30 rfl
     (by decide),
   (nth_validation_walk_fault_detection listCursorIter).2.2.2 oneState 0 .exhausted
     (by decide) (by decide) rfl⟩

/-- Every normally-returning `nth` call leaves `checked_depth` unchanged: no
branch of the source writes that field. -/
theorem nth_checked_depth_eq {σ : Type} (I : GlobalStateIter σ)
    (st : GlobalContractState σ) (depth : Nat)
    (out : Option DataState × GlobalContractState σ)
    (h : st.nth I depth = .ok out) : out.2.checked_depth = st.checked_depth := by
  unfold GlobalContractState.nth at h
  split at h
  · injection h with h'
    subst h'
    rfl
  · split at h
    · injection h with h'
      subst h'
      rfl
    · split at h
      · exact absurd h (by simp)
      · injection h with h'
        subst h'
        rfl

/-- On the jump branch (`depth >= checked_depth`) and on the out-of-range
branch, `last_ord` is also left unchanged. -/
theorem nth_jump_last_ord_eq {σ : Type} (I : GlobalStateIter σ)
    (st : GlobalContractState σ) (depth : Nat)
    (out : Option DataState × GlobalContractState σ)
    (hd : st.checked_depth ≤ depth)
    (h : st.nth I depth = .ok out) : out.2.last_ord = st.last_ord := by
  unfold GlobalContractState.nth at h
  by_cases hs : I.size st.iter ≤ depth
  · rw [if_pos hs] at h
    injection h with h'
    subst h'
    rfl
  · rw [if_neg hs, if_pos hd] at h
    injection h with h'
    subst h'
    rfl

/-- Any fault-free sequence of `nth` calls preserves `checked_depth`. -/
theorem runNth_checked_depth_eq {σ : Type} (I : GlobalStateIter σ)
    (ds : List Nat) (st st' : GlobalContractState σ)
    (h : runNth I ds st = .ok st') : st'.checked_depth = st.checked_depth := by
  induction ds generalizing st with
  | nil =>
    unfold runNth at h
    injection h with h'
    subst h'
    rfl
  | cons d ds ih =>
    unfold runNth at h
    rcases hq : st.nth I d with f | ⟨v, st1⟩ <;> rw [hq] at h
    · exact absurd h (by simp)
    · exact (ih st1 h).trans (nth_checked_depth_eq I st d (v, st1) hq)

/-- C10: `nth` never writes `checked_depth`, so across any fault-free
sequence of calls it keeps its construction value 1; on the jump branch
(`depth >= checked_depth`) `last_ord` is also unchanged — only the rewind
walk updates it. -/
theorem nth_preserves_checked_depth {σ : Type} (I : GlobalStateIter σ) :
    (∀ (st : GlobalContractState σ) (depth : Nat)
        (out : Option DataState × GlobalContractState σ),
      st.nth I depth = .ok out → out.2.checked_depth = st.checked_depth) ∧
    (∀ (st : GlobalContractState σ) (depth : Nat)
        (out : Option DataState × GlobalContractState σ),
      st.checked_depth ≤ depth → st.nth I depth = .ok out →
        out.2.last_ord = st.last_ord) ∧
    (∀ (s : σ) (ds : List Nat) (st' : GlobalContractState σ),
      runNth I ds (GlobalContractState.fromIter I s) = .ok st' →
        st'.checked_depth = 1) :=
  ⟨fun st depth out h => nth_checked_depth_eq I st depth out h,
   fun st depth out hd h => nth_jump_last_ord_eq I st depth out hd h,
   fun _ ds st' h => runNth_checked_depth_eq I ds _ st' h⟩

/-- Witness for C10 on the spec-example history. -/
theorem nth_preserves_checked_depth_witness :
    (GlobalContractState.mk 1 rec3 (ListCursor.mk exampleRecords 2)).checked_depth
      = exampleState.checked_depth ∧
    (GlobalContractState.mk 1 rec3 (ListCursor.mk exampleRecords 2)).last_ord
      = exampleState.last_ord ∧
    (GlobalContractState.mk 1 rec3 (ListCursor.mk exampleRecords 3)).checked_depth
      = 1 :=
  ⟨(nth_preserves_checked_depth listCursorIter).1 exampleState 1
      (some 21, ⟨1, rec3, ⟨exampleRecords, 2⟩⟩) rfl,
   (nth_preserves_checked_depth listCursorIter).2.1 exampleState 1
      (some 21, ⟨1, rec3, ⟨exampleRecords, 2⟩⟩) (by decide) rfl,
   (nth_preserves_checked_depth listCursorIter).2.2 ⟨exampleRecords, 0⟩ [1, 2]
      ⟨1, rec3, ⟨exampleRecords, 3⟩⟩ rfl⟩

/-- C3 (code bug): on the conforming spec-example history, the very first
sequential query `nth 0` already reaches the fatal-fault branch instead of
returning the newest value: `depth = 0` falls into the rewind branch (because
`checked_depth` is 1), whose loop bound `0 - 1` wraps around as `u32`, so the
walk runs the cursor dry and hits the exhaustion panic. -/
theorem nth_sequential_walk_faults :
    Conforming exampleRecords ∧
    listCursorIter.size exampleState.iter = 4 ∧
    exampleState.nth listCursorIter 0 = .error .exhausted := by
  refine ⟨?_, rfl, rfl⟩
  unfold Conforming exampleRecords
  simp only [List.chain'_cons, List.chain'_singleton, and_true]
  refine ⟨by decide, by decide, by decide⟩

/-- C4 (code bug): the cached accessor does not match a pure from-scratch
forward walk: on a conforming single-record history the pure walk returns the
newest value at depth 0 while `nth 0` faults. -/
theorem nth_random_access_divergence :
    Conforming oneRecord ∧
    pureNth oneRecord 0 = some 7 ∧
    pureNth oneRecord 1 = none ∧
    oneState.nth listCursorIter 0 = .error .exhausted := by
  refine ⟨?_, rfl, rfl, rfl⟩
  unfold Conforming oneRecord
  exact List.chain'_singleton _
